import Mathlib

/-!
# Verification of the OBJ parsing / normalization and render lifecycle of
# Hololens-OBJRenderer (Content/OBJRenderer.cpp)

Shallow embedding conventions:

* `FLOAT` (IEEE single precision) is modelled as `ℚ` with exact arithmetic;
  division by zero in `ℚ` is `0` where the C++ float would produce inf/NaN.
* `std::vector` is `List` with `push_back` as append at the tail, so
  `vector::back` is `List.getLast?`.
* Exceptions and undefined behaviour are modelled with `Except ParseErr`:
  `badNumber` models the `std::invalid_argument`/`std::out_of_range`
  exceptions thrown by `std::stof`/`std::stoi`, `backEmpty` models the
  undefined behaviour of `vertices.back()` on an empty vector
  (OBJRenderer.cpp:387/395), and `emptyScan` models the undefined behaviour
  of dereferencing `std::max_element(begin, end)` on an empty vector
  (OBJRenderer.cpp:417-423).
* The `vn` handler (OBJRenderer.cpp:364-372) divides the parsed normal by
  its euclidean length, an irrational-valued operation; the embedding
  abstracts that one map as a parameter `normN : Vec3 → Vec3`.  Every
  theorem below is proved for all `normN`, and no claim depends on the
  color field values.
* The progress printing (`std::cout`, OBJRenderer.cpp:338) and
  `in.close()` are effect-free for the parse result and are omitted.
-/

namespace OBJR

/-- `XMFLOAT3`, three single-precision floats, modelled as `ℚ` coordinates. -/
structure Vec3 where
  x : ℚ
  y : ℚ
  z : ℚ
deriving DecidableEq, Repr

/-- `VertexPositionColor`: the vertex layout used by the renderer,
a position and a color (the color slot holds the normalized normal). -/
structure VertexPositionColor where
  pos : Vec3
  color : Vec3
deriving DecidableEq, Repr

/-- The accumulating parse state: the file-scope `vertices` and `indices`
containers of OBJRenderer.cpp (push_back appends at the tail). -/
abbrev ParseState := List VertexPositionColor × List ℕ

/-- Failure modes of `parseOBJ`: `badNumber` models the exceptions thrown by
`std::stof`/`std::stoi`; `backEmpty` models the undefined behaviour of
`vertices.back()` on an empty vector; `emptyScan` models the undefined
behaviour of the six `max_element`/`min_element` scans on an empty vector. -/
inductive ParseErr where
  | backEmpty
  | emptyScan
  | badNumber
deriving DecidableEq, Repr

/-! ## Tokenization (OBJRenderer.cpp:344-351)

The C++ loop repeatedly calls `getline(ss, data, ' ')`: it splits on every
single space (consecutive spaces produce empty tokens), and a trailing
space produces no trailing empty token (the final `getline` fails at EOF
having extracted nothing). -/

/-- Split a character list on single spaces, `getline` style: `cur` is the
(reversed) token being accumulated. -/
def tokensAux (cur : List Char) : List Char → List String
  | [] => [String.mk cur.reverse]
  | c :: cs =>
    if c = ' ' then
      String.mk cur.reverse :: (if cs.isEmpty then [] else tokensAux [] cs)
    else
      tokensAux (c :: cur) cs

/-- The token record `rec` built from one input line (OBJRenderer.cpp:344-351). -/
def tokenize (s : String) : List String :=
  match s.data with
  | [] => []
  | c :: cs => tokensAux [] (c :: cs)

/-- A line is skipped when it is empty or contains a `#` anywhere
(OBJRenderer.cpp:341, comment detection is substring-based). -/
def skipLine (l : String) : Bool :=
  l.data.isEmpty || l.data.contains '#'

/-! ## Numeric token parsing -/

/-- Value of a digit string. -/
def digitsVal (ds : List Char) : ℕ :=
  ds.foldl (fun a c => a * 10 + (c.toNat - 48)) 0

/-- Peel an optional leading sign, returning the sign as `±1`. -/
def signSplit : List Char → ℤ × List Char
  | '-' :: r => (-1, r)
  | '+' :: r => (1, r)
  | cs => (1, cs)

/-- Model of `std::stof` on the decimal subset
`[sign] digits [ '.' digits ]` actually exercised by OBJ files: trailing
junk is ignored as `stof` does, `none` models the thrown
`std::invalid_argument` when no digits can be converted.  (The exponent
forms and the float-overflow throw of `stof` are not exercised by any
claim and are left out; float rounding is idealized away by `ℚ`.) -/
def stofQ (s : String) : Option ℚ :=
  let p := signSplit s.data
  let ds := p.2.takeWhile Char.isDigit
  let rest := p.2.dropWhile Char.isDigit
  match rest with
  | '.' :: r2 =>
    let fs := r2.takeWhile Char.isDigit
    if ds.isEmpty && fs.isEmpty then none
    else some ((p.1 : ℚ) * ((digitsVal ds : ℚ) + (digitsVal fs : ℚ) / (10 : ℚ) ^ fs.length))
  | _ =>
    if ds.isEmpty then none
    else some ((p.1 : ℚ) * (digitsVal ds : ℚ))

/-- Smallest `int` value (stoi returns a 32-bit `int`). -/
def intMin : ℤ := -(2 ^ 31)

/-- Largest `int` value. -/
def intMax : ℤ := 2 ^ 31 - 1

/-- Model of `std::stoi`: optional sign, maximal leading digit run, trailing junk
ignored; `none` models the `std::invalid_argument` throw (no digits) and the
`std::out_of_range` throw (value outside `int`). -/
def stoiInt (s : String) : Option ℤ :=
  let p := signSplit s.data
  let ds := p.2.takeWhile Char.isDigit
  if ds.isEmpty then none
  else
    let n : ℤ := p.1 * (digitsVal ds : ℤ)
    if n < intMin ∨ intMax < n then none else some n

/-- `rec[i].substr(0, rec[i].find_first_of( '/' ))`: keep the characters before
the first slash (OBJRenderer.cpp:405-407). -/
def truncSlash (s : String) : String :=
  String.mk (s.data.takeWhile (fun c => c ≠ '/'))

/-- `(UINT)z`: conversion of a C++ `int` to a 32-bit unsigned value. -/
def toUint32 (z : ℤ) : ℕ :=
  (z % (2 ^ 32 : ℤ)).toNat

/-- Subtraction of 1 in 32-bit unsigned arithmetic (wraps at 0). -/
def uint32Sub1 (n : ℕ) : ℕ :=
  (n + (2 ^ 32 - 1)) % 2 ^ 32

/-- The stored face index: `(UINT)std::stoi(...) - 1` (OBJRenderer.cpp:405-407). -/
def faceIndex (z : ℤ) : ℕ :=
  uint32Sub1 (toUint32 z)

/-! ## Record handlers (OBJRenderer.cpp:360-411) -/

/-- `vertices.back().pos = XMFLOAT3(x, y, z)`: overwrite the position of the
last pushed vertex; `none` when the vector is empty (undefined behaviour in
the source). -/
def setBackPos : List VertexPositionColor → Vec3 → Option (List VertexPositionColor)
  | [], _ => none
  | v :: vs, p =>
    some ((v :: vs).dropLast ++ [{ (v :: vs).getLast (List.cons_ne_nil v vs) with pos := p }])

/-- The `vn` branch (OBJRenderer.cpp:360-373): parse three floats, push a new
vertex whose color is the length-normalized normal (`normN` abstracts the
division by the euclidean length) and whose position is left at its
default. -/
def handleVn (normN : Vec3 → Vec3) (st : ParseState) (r1 r2 r3 : String) :
    Except ParseErr ParseState :=
  match stofQ r1, stofQ r2, stofQ r3 with
  | some nx, some ny, some nz =>
    .ok (st.1 ++ [{ pos := ⟨0, 0, 0⟩, color := normN ⟨nx, ny, nz⟩ }], st.2)
  | _, _, _ => .error .badNumber

/-- The 4-token `v` branch (OBJRenderer.cpp:390-396): parse x, y, z and
overwrite the position of the last vertex. -/
def handleV (st : ParseState) (r1 r2 r3 : String) : Except ParseErr ParseState :=
  match stofQ r1, stofQ r2, stofQ r3 with
  | some x, some y, some z =>
    match setBackPos st.1 ⟨x, y, z⟩ with
    | some vs => .ok (vs, st.2)
    | none => .error .backEmpty
  | _, _, _ => .error .badNumber

/-- The 7-token `v` branch (OBJRenderer.cpp:379-389): r, g, b are parsed but
discarded (the color assignment is commented out in the source). -/
def handleV7 (st : ParseState) (r1 r2 r3 r4 r5 r6 : String) : Except ParseErr ParseState :=
  match stofQ r1, stofQ r2, stofQ r3, stofQ r4, stofQ r5, stofQ r6 with
  | some x, some y, some z, some _, some _, some _ =>
    match setBackPos st.1 ⟨x, y, z⟩ with
    | some vs => .ok (vs, st.2)
    | none => .error .backEmpty
  | _, _, _, _, _, _ => .error .badNumber

/-- The `f` branch (OBJRenderer.cpp:398-411): each reference is truncated at
its first `/`, parsed 1-based, converted with unsigned `- 1`, and the three
indices are pushed in reverse order `v3, v2, v1`. -/
def handleF (st : ParseState) (r1 r2 r3 : String) : Except ParseErr ParseState :=
  match stoiInt (truncSlash r1), stoiInt (truncSlash r2), stoiInt (truncSlash r3) with
  | some z1, some z2, some z3 =>
    .ok (st.1, st.2 ++ [faceIndex z3, faceIndex z2, faceIndex z1])
  | _, _, _ => .error .badNumber

/-- Dispatch on `rec[0]` (OBJRenderer.cpp:354-411): an empty record, a wrong
token count, or an unrecognized tag leaves the state unchanged. -/
def dispatch (normN : Vec3 → Vec3) (st : ParseState) : List String → Except ParseErr ParseState
  | [] => .ok st
  | t :: rest =>
    if t = "vn" then
      match rest with
      | [r1, r2, r3] => handleVn normN st r1 r2 r3
      | _ => .ok st
    else if t = "v" then
      match rest with
      | [r1, r2, r3] => handleV st r1 r2 r3
      | [r1, r2, r3, r4, r5, r6] => handleV7 st r1 r2 r3 r4 r5 r6
      | _ => .ok st
    else if t = "f" then
      match rest with
      | [r1, r2, r3] => handleF st r1 r2 r3
      | _ => .ok st
    else .ok st

/-- Process one input line (OBJRenderer.cpp:331-412): skip empty/comment
lines, otherwise tokenize and dispatch. -/
def processLine (normN : Vec3 → Vec3) (st : ParseState) (l : String) :
    Except ParseErr ParseState :=
  if skipLine l then .ok st else dispatch normN st (tokenize l)

/-- The `while (in)` loop over all lines of the stream. -/
def runLinesFrom (normN : Vec3 → Vec3) (st : ParseState) :
    List String → Except ParseErr ParseState
  | [] => .ok st
  | l :: ls =>
    match processLine normN st l with
    | .ok st2 => runLinesFrom normN st2 ls
    | .error e => .error e

/-- Run the parse loop from the initial empty containers. -/
def runLines (normN : Vec3 → Vec3) (ls : List String) : Except ParseErr ParseState :=
  runLinesFrom normN ([], []) ls

/-! ## Bounding box and normalization (OBJRenderer.cpp:417-439)

`std::max_element` with a strict `<` comparator over a non-empty vector
returns (an iterator to) the maximum value; `FLOAT` comparison on `ℚ` is
the usual linear order, so the scan is a `foldl max` seeded with the first
element. -/

/-- Value of `max_element` over the non-empty vector `x :: l`. -/
def listMax (x : ℚ) (l : List ℚ) : ℚ := l.foldl max x

/-- Value of `min_element` over the non-empty vector `x :: l`. -/
def listMin (x : ℚ) (l : List ℚ) : ℚ := l.foldl min x

/-- The three coordinate axes, used to state per-axis properties once. -/
inductive Axis where
  | X
  | Y
  | Z
deriving DecidableEq, Repr

/-- The position coordinate of a vertex on one axis. -/
def axisCoord (a : Axis) (v : VertexPositionColor) : ℚ :=
  match a with
  | .X => v.pos.x
  | .Y => v.pos.y
  | .Z => v.pos.z

/-- `maxX`/`maxY`/`maxZ` of OBJRenderer.cpp:417-419 on the non-empty vertex
vector `v0 :: rest`. -/
def vertsMax (a : Axis) (v0 : VertexPositionColor) (rest : List VertexPositionColor) : ℚ :=
  listMax (axisCoord a v0) (rest.map (axisCoord a))

/-- `minX`/`minY`/`minZ` of OBJRenderer.cpp:421-423. -/
def vertsMin (a : Axis) (v0 : VertexPositionColor) (rest : List VertexPositionColor) : ℚ :=
  listMin (axisCoord a v0) (rest.map (axisCoord a))

/-- `delX = fabs(maxX - minX)` (OBJRenderer.cpp:425-427). -/
def delAxis (a : Axis) (v0 : VertexPositionColor) (rest : List VertexPositionColor) : ℚ :=
  |vertsMax a v0 rest - vertsMin a v0 rest|

/-- `avgX = (maxX + minX) / 2.0f` (OBJRenderer.cpp:428-430). -/
def avgAxis (a : Axis) (v0 : VertexPositionColor) (rest : List VertexPositionColor) : ℚ :=
  (vertsMax a v0 rest + vertsMin a v0 rest) / 2

/-- The per-vertex body of the normalization loop (OBJRenderer.cpp:432-439):
subtract the center, then divide by `5 * del`, on each axis. -/
def normPoint (v0 : VertexPositionColor) (rest : List VertexPositionColor)
    (v : VertexPositionColor) : VertexPositionColor :=
  { v with
    pos :=
      ⟨(v.pos.x - avgAxis .X v0 rest) / (5 * delAxis .X v0 rest),
       (v.pos.y - avgAxis .Y v0 rest) / (5 * delAxis .Y v0 rest),
       (v.pos.z - avgAxis .Z v0 rest) / (5 * delAxis .Z v0 rest)⟩ }

/-- The whole centering-and-scaling step (OBJRenderer.cpp:417-439) on a
non-empty vertex vector `v0 :: rest`: the in-place loop is a map. -/
def normalizeVertices (v0 : VertexPositionColor) (rest : List VertexPositionColor) :
    List VertexPositionColor :=
  (v0 :: rest).map (normPoint v0 rest)

/-- Recomputed per-axis maximum of an output vertex list (`0` on the empty
list, which no claim exercises). -/
def recompMax (a : Axis) : List VertexPositionColor → ℚ
  | [] => 0
  | v0 :: rest => vertsMax a v0 rest

/-- Recomputed per-axis minimum of an output vertex list. -/
def recompMin (a : Axis) : List VertexPositionColor → ℚ
  | [] => 0
  | v0 :: rest => vertsMin a v0 rest

/-- Recomputed per-axis span `max - min` of an output vertex list. -/
def recompSpan (a : Axis) (vs : List VertexPositionColor) : ℚ :=
  recompMax a vs - recompMin a vs

/-- Recomputed per-axis center `(max + min) / 2` of an output vertex list. -/
def recompCenter (a : Axis) (vs : List VertexPositionColor) : ℚ :=
  (recompMax a vs + recompMin a vs) / 2

/-- `parseOBJ` (OBJRenderer.cpp:318-440).  The input stream is
`Option (List String)`: `none` is a stream that could not be opened, for
which the function returns immediately with both containers empty
(OBJRenderer.cpp:321-323); `some lines` is an open stream delivering the
given lines.  After the line loop, the six extremum scans run; on an empty
vertex vector they are undefined behaviour, modelled as `emptyScan`. -/
def parseOBJ (normN : Vec3 → Vec3) : Option (List String) → Except ParseErr ParseState
  | none => .ok ([], [])
  | some lines =>
    match runLines normN lines with
    | .error e => .error e
    | .ok (vs, is) =>
      match vs with
      | [] => .error .emptyScan
      | v0 :: rest => .ok (normalizeVertices v0 rest, is)

/-- Translate one vertex by `t` along one axis (input transformation used to
state the translation-invariance claim). -/
def translateAxis (a : Axis) (t : ℚ) (v : VertexPositionColor) : VertexPositionColor :=
  match a with
  | .X => { v with pos := ⟨v.pos.x + t, v.pos.y, v.pos.z⟩ }
  | .Y => { v with pos := ⟨v.pos.x, v.pos.y + t, v.pos.z⟩ }
  | .Z => { v with pos := ⟨v.pos.x, v.pos.y, v.pos.z + t⟩ }

/-! ## Syntactic record classification, for the precondition of claim C5 -/

/-- Token records that reach `vertices.back()`: tag `v` with exactly 4 or 7
tokens. -/
def isVTok : List String → Bool
  | t :: rest => t == "v" && (rest.length == 3 || rest.length == 6)
  | [] => false

/-- Token records that `push_back` a vertex: tag `vn` with exactly 4 tokens. -/
def isVnTok : List String → Bool
  | t :: rest => t == "vn" && rest.length == 3
  | [] => false

/-- A line that reaches the `vertices.back()` access. -/
def isVTouch (l : String) : Bool :=
  !skipLine l && isVTok (tokenize l)

/-- A line that appends a vertex (a well-shaped `vn` record). -/
def isVnRec (l : String) : Bool :=
  !skipLine l && isVnTok (tokenize l)

/-- The format precondition of the spec: scanning the lines in order, every
`v` record that reaches `vertices.back()` is preceded by at least one `vn`
record.  `seen` records whether a `vn` record has already occurred. -/
def vnBeforeV (seen : Bool) : List String → Bool
  | [] => true
  | l :: ls =>
    if isVTouch l && !seen then false
    else vnBeforeV (seen || isVnRec l) ls

/-! ## Render-resource lifecycle (OBJRenderer.cpp:168-315)

`CreateDeviceDependentResources` chains `task` continuations: the vertex-,
pixel- and (when VPRT is unsupported) geometry-shader creation steps run
concurrently; the buffer-building continuation runs after the join of all
shader tasks (OBJRenderer.cpp:258-296); the final continuation sets
`m_loadingComplete = true` (OBJRenderer.cpp:299-302).  The embedding is a
step relation on the completion flags.  `m_loadingComplete` starts out
false (member default in the class header, which matches the spec:
`ready` must be false immediately after load begins). -/

/-- Completion flags of one load attempt. -/
structure LoadStatus where
  usingVprt : Bool
  vsDone : Bool
  psDone : Bool
  gsDone : Bool
  buffersDone : Bool
  loadingComplete : Bool
deriving DecidableEq, Repr

/-- State right after `CreateDeviceDependentResources` issues the loads:
nothing has completed and `m_loadingComplete` is false. -/
def beginLoad (vprtSupported : Bool) : LoadStatus :=
  { usingVprt := vprtSupported
    vsDone := false
    psDone := false
    gsDone := false
    buffersDone := false
    loadingComplete := false }

/-- One continuation of the task graph completing.  `buffersBuilt` is gated
on the join of the shader tasks (`createPSTask && createVSTask`, plus
`createGSTask` when VPRT is unsupported, OBJRenderer.cpp:258), and
`complete` is the continuation of the buffer task (OBJRenderer.cpp:299). -/
inductive LoadStep : LoadStatus → LoadStatus → Prop
  | vsReady (s : LoadStatus) : LoadStep s { s with vsDone := true }
  | psReady (s : LoadStatus) : LoadStep s { s with psDone := true }
  | gsReady (s : LoadStatus) : s.usingVprt = false → LoadStep s { s with gsDone := true }
  | buffersBuilt (s : LoadStatus) :
      s.vsDone = true → s.psDone = true → (s.usingVprt = false → s.gsDone = true) →
      LoadStep s { s with buffersDone := true }
  | complete (s : LoadStatus) :
      s.buffersDone = true → LoadStep s { s with loadingComplete := true }

/-- Reachability in the lifecycle step relation. -/
def LoadReaches (s t : LoadStatus) : Prop :=
  Relation.ReflTransGen LoadStep s t

/-- The fully completed lifecycle state on a device without VPRT support
(used to exhibit a concrete run of the step relation). -/
def loadedState : LoadStatus :=
  { usingVprt := false
    vsDone := true
    psDone := true
    gsDone := true
    buffersDone := true
    loadingComplete := true }

/-! ## Render (OBJRenderer.cpp:97-166)

`Render` is modelled by the trace of device-context calls it submits. -/

/-- One device-context call made by `Render`. -/
inductive GpuCmd where
  | setVertexBuffers
  | setIndexBuffer
  | setTopology
  | setInputLayout
  | setVertexShader
  | setVSConstantBuffers
  | setGeometryShader
  | setPixelShader
  | drawIndexedInstanced (indexCount instanceCount : ℕ)
deriving DecidableEq, Repr

/-- Is the command a draw submission? -/
def isDraw : GpuCmd → Bool
  | .drawIndexedInstanced _ _ => true
  | _ => false

/-- Trace of `Render` (OBJRenderer.cpp:97-166): nothing when
`m_loadingComplete` is false; otherwise the bindings in source order, the
geometry shader only when `m_usingVprtShaders` is false, and one
`DrawIndexedInstanced` with instance count 2 (OBJRenderer.cpp:159-165). -/
def render (loadingComplete usingVprt : Bool) (indexCount : ℕ) : List GpuCmd :=
  if loadingComplete = false then []
  else
    [.setVertexBuffers, .setIndexBuffer, .setTopology, .setInputLayout,
     .setVertexShader, .setVSConstantBuffers]
    ++ (if usingVprt = false then [.setGeometryShader] else [])
    ++ [.setPixelShader, .drawIndexedInstanced indexCount 2]

/-! ## Concrete inputs used by witnesses and counterexamples -/

/-- A corner of the ±1 cube. -/
def corner (sx sy sz : ℚ) : VertexPositionColor :=
  { pos := ⟨sx, sy, sz⟩, color := ⟨0, 0, 0⟩ }

/-- First vertex of the ±1 axis-aligned cube. -/
def cubeHead : VertexPositionColor := corner 1 1 1

/-- The remaining seven vertices of the ±1 axis-aligned cube. -/
def cubeRest : List VertexPositionColor :=
  [corner 1 1 (-1), corner 1 (-1) 1, corner 1 (-1) (-1),
   corner (-1) 1 1, corner (-1) 1 (-1), corner (-1) (-1) 1, corner (-1) (-1) (-1)]

/-- A two-line OBJ input with one normal and one vertex (satisfies the C5
precondition and produces a non-empty vertex vector). -/
def demoLines : List String := ["vn 1 0 0", "v 1 2 3"]

/-- The vertex list produced by `demoLines`. -/
def demoVerts : List VertexPositionColor :=
  [{ pos := ⟨1, 2, 3⟩, color := ⟨1, 0, 0⟩ }]

/-! ## Lemmas about the extremum scans -/

theorem listMax_cons (x a : ℚ) (l : List ℚ) : listMax x (a :: l) = listMax (max x a) l := rfl

theorem listMin_cons (x a : ℚ) (l : List ℚ) : listMin x (a :: l) = listMin (min x a) l := rfl

theorem le_listMax (x : ℚ) (l : List ℚ) : x ≤ listMax x l := by
  induction l generalizing x with
  | nil => exact le_refl x
  | cons a l ih => exact le_trans (le_max_left x a) (ih (max x a))

theorem listMin_le (x : ℚ) (l : List ℚ) : listMin x l ≤ x := by
  induction l generalizing x with
  | nil => exact le_refl x
  | cons a l ih => exact le_trans (ih (min x a)) (min_le_left x a)

theorem listMin_le_listMax (x : ℚ) (l : List ℚ) : listMin x l ≤ listMax x l :=
  le_trans (listMin_le x l) (le_listMax x l)

theorem listMax_map (f : ℚ → ℚ) (hf : Monotone f) (x : ℚ) (l : List ℚ) :
    listMax (f x) (l.map f) = f (listMax x l) := by
  induction l generalizing x with
  | nil => rfl
  | cons a l ih => rw [List.map_cons, listMax_cons, ← hf.map_max, ih, listMax_cons]

theorem listMin_map (f : ℚ → ℚ) (hf : Monotone f) (x : ℚ) (l : List ℚ) :
    listMin (f x) (l.map f) = f (listMin x l) := by
  induction l generalizing x with
  | nil => rfl
  | cons a l ih => rw [List.map_cons, listMin_cons, ← hf.map_min, ih, listMin_cons]

theorem monotone_shiftScale (c k : ℚ) (hk : 0 ≤ k) :
    Monotone fun q => (q - c) / k := by
  rcases eq_or_lt_of_le hk with h0 | hpos
  · have hconst : (fun q : ℚ => (q - c) / k) = fun _ => (0 : ℚ) := by
      funext q
      rw [← h0, div_zero]
    rw [hconst]
    exact monotone_const
  · intro p q hpq
    exact (div_le_div_iff_of_pos_right hpos).2 (by linarith)

/-! ## Lemmas about the normalization step -/

theorem axisCoord_normPoint (a : Axis) (v0 : VertexPositionColor)
    (rest : List VertexPositionColor) (v : VertexPositionColor) :
    axisCoord a (normPoint v0 rest v) =
      (axisCoord a v - avgAxis a v0 rest) / (5 * delAxis a v0 rest) := by
  cases a <;> rfl

theorem map_axisCoord_normPoint (a : Axis) (v0 : VertexPositionColor)
    (rest l : List VertexPositionColor) :
    (l.map (normPoint v0 rest)).map (axisCoord a) =
      (l.map (axisCoord a)).map
        (fun q => (q - avgAxis a v0 rest) / (5 * delAxis a v0 rest)) := by
  simp only [List.map_map]
  apply List.map_congr_left
  intro v _
  simp only [Function.comp_apply]
  exact axisCoord_normPoint a v0 rest v

theorem delAxis_nonneg (a : Axis) (v0 : VertexPositionColor)
    (rest : List VertexPositionColor) : 0 ≤ 5 * delAxis a v0 rest :=
  mul_nonneg (by norm_num) (abs_nonneg _)

theorem normalizeVertices_cons (v0 : VertexPositionColor) (rest : List VertexPositionColor) :
    normalizeVertices v0 rest = normPoint v0 rest v0 :: rest.map (normPoint v0 rest) := by
  simp [normalizeVertices]

theorem recompMax_normalize (a : Axis) (v0 : VertexPositionColor)
    (rest : List VertexPositionColor) :
    recompMax a (normalizeVertices v0 rest) =
      (vertsMax a v0 rest - avgAxis a v0 rest) / (5 * delAxis a v0 rest) := by
  rw [normalizeVertices_cons]
  show vertsMax a (normPoint v0 rest v0) (rest.map (normPoint v0 rest)) = _
  unfold vertsMax
  rw [map_axisCoord_normPoint, axisCoord_normPoint,
    listMax_map _ (monotone_shiftScale _ _ (delAxis_nonneg a v0 rest))]

theorem recompMin_normalize (a : Axis) (v0 : VertexPositionColor)
    (rest : List VertexPositionColor) :
    recompMin a (normalizeVertices v0 rest) =
      (vertsMin a v0 rest - avgAxis a v0 rest) / (5 * delAxis a v0 rest) := by
  rw [normalizeVertices_cons]
  show vertsMin a (normPoint v0 rest v0) (rest.map (normPoint v0 rest)) = _
  unfold vertsMin
  rw [map_axisCoord_normPoint, axisCoord_normPoint,
    listMin_map _ (monotone_shiftScale _ _ (delAxis_nonneg a v0 rest))]

theorem recompSpan_normalize (a : Axis) (v0 : VertexPositionColor)
    (rest : List VertexPositionColor) :
    recompSpan a (normalizeVertices v0 rest) =
      (vertsMax a v0 rest - vertsMin a v0 rest) / (5 * delAxis a v0 rest) := by
  unfold recompSpan
  rw [recompMax_normalize, recompMin_normalize, div_sub_div_same]
  ring_nf

theorem recompCenter_normalize (a : Axis) (v0 : VertexPositionColor)
    (rest : List VertexPositionColor) :
    recompCenter a (normalizeVertices v0 rest) = 0 := by
  unfold recompCenter
  rw [recompMax_normalize, recompMin_normalize, div_add_div_same]
  have hz : vertsMax a v0 rest - avgAxis a v0 rest + (vertsMin a v0 rest - avgAxis a v0 rest)
      = 0 := by
    unfold avgAxis
    ring
  rw [hz, zero_div, zero_div]

theorem vertsMin_le_vertsMax (a : Axis) (v0 : VertexPositionColor)
    (rest : List VertexPositionColor) : vertsMin a v0 rest ≤ vertsMax a v0 rest :=
  listMin_le_listMax _ _

/-! ## Lemmas about translating the input along an axis -/

theorem axisCoord_translateAxis (a : Axis) (t : ℚ) (v : VertexPositionColor) :
    axisCoord a (translateAxis a t v) = axisCoord a v + t := by
  cases a <;> rfl

theorem map_axisCoord_translateAxis (a : Axis) (t : ℚ) (l : List VertexPositionColor) :
    (l.map (translateAxis a t)).map (axisCoord a) =
      (l.map (axisCoord a)).map (fun q => q + t) := by
  simp only [List.map_map]
  apply List.map_congr_left
  intro v _
  simp only [Function.comp_apply]
  exact axisCoord_translateAxis a t v

theorem vertsMax_translateAxis (a : Axis) (t : ℚ) (v0 : VertexPositionColor)
    (rest : List VertexPositionColor) :
    vertsMax a (translateAxis a t v0) (rest.map (translateAxis a t)) =
      vertsMax a v0 rest + t := by
  unfold vertsMax
  rw [map_axisCoord_translateAxis, axisCoord_translateAxis]
  exact listMax_map (fun q => q + t) (fun p q h => by dsimp only; linarith) _ _

theorem vertsMin_translateAxis (a : Axis) (t : ℚ) (v0 : VertexPositionColor)
    (rest : List VertexPositionColor) :
    vertsMin a (translateAxis a t v0) (rest.map (translateAxis a t)) =
      vertsMin a v0 rest + t := by
  unfold vertsMin
  rw [map_axisCoord_translateAxis, axisCoord_translateAxis]
  exact listMin_map (fun q => q + t) (fun p q h => by dsimp only; linarith) _ _

theorem delAxis_translateAxis (a : Axis) (t : ℚ) (v0 : VertexPositionColor)
    (rest : List VertexPositionColor) :
    delAxis a (translateAxis a t v0) (rest.map (translateAxis a t)) = delAxis a v0 rest := by
  unfold delAxis
  rw [vertsMax_translateAxis, vertsMin_translateAxis]
  ring_nf

/-! ## Claim C4 -/

/-- C4: for every non-empty input vertex set and every axis, translating
every input position by the same offset along that axis leaves the
post-normalization quantity `max(positions) - min(positions)` on that axis
unchanged. -/
theorem claim4_theorem (a : Axis) (t : ℚ) (v0 : VertexPositionColor)
    (rest : List VertexPositionColor) :
    recompSpan a (normalizeVertices (translateAxis a t v0) (rest.map (translateAxis a t))) =
      recompSpan a (normalizeVertices v0 rest) := by
  rw [recompSpan_normalize, recompSpan_normalize, delAxis_translateAxis,
    vertsMax_translateAxis, vertsMin_translateAxis]
  ring_nf

/-! ## Claim C1 -/

/-- C1 counterexample: for the axis-aligned cube with vertices at ±1 on each
axis, the original x-span is 2 and the recomputed post-normalization x-span
is 1/5, not the original span divided by 5 (which would be 2/5). -/
theorem claim1_counterexample :
    recompSpan Axis.X (cubeHead :: cubeRest) = 2 ∧
      recompSpan Axis.X (normalizeVertices cubeHead cubeRest) = 1 / 5 ∧
      (1 : ℚ) / 5 ≠ 2 / 5 :=
  of_decide_eq_true (by with_unfolding_all rfl)

/-- C1 (amended): for every input mesh with non-degenerate per-axis extrema
(as in an axis-aligned cube with distinct min/max, e.g. vertices at ±1),
after the normalization step of `parseOBJ` the recomputed per-axis center of
the output positions is 0 on every axis, and the recomputed per-axis span is
the original span divided by 5 times the original span — that is, 1/5 — not
the original span divided by 5. -/
theorem claim1_theorem (v0 : VertexPositionColor) (rest : List VertexPositionColor)
    (h : ∀ a : Axis, vertsMax a v0 rest ≠ vertsMin a v0 rest) :
    ∀ a : Axis, recompCenter a (normalizeVertices v0 rest) = 0 ∧
      recompSpan a (normalizeVertices v0 rest) = 1 / 5 := by
  intro a
  refine ⟨recompCenter_normalize a v0 rest, ?_⟩
  rw [recompSpan_normalize]
  have hle := vertsMin_le_vertsMax a v0 rest
  have hne : vertsMax a v0 rest - vertsMin a v0 rest ≠ 0 := sub_ne_zero.2 (h a)
  unfold delAxis
  rw [abs_of_nonneg (sub_nonneg.2 hle), mul_comm, div_mul_eq_div_div, div_self hne]

/-- C1 witness: the amended claim evaluated on the ±1 cube, x axis. -/
theorem claim1_witness :
    recompCenter Axis.X (normalizeVertices cubeHead cubeRest) = 0 ∧
      recompSpan Axis.X (normalizeVertices cubeHead cubeRest) = 1 / 5 :=
  claim1_theorem cubeHead cubeRest
    (fun a => by cases a <;> exact of_decide_eq_true (by with_unfolding_all rfl)) Axis.X

/-! ## Claim C2 -/

/-- C2 counterexample: the face line `f 1/2/3 4/5/6 7/8/9` appends the index
triple (6, 3, 0) — the slash-truncated references (1, 4, 7) made 0-based and
reversed — not (6, 4, 1) as the claim states. -/
theorem claim2_counterexample :
    processLine (fun n => n) ([], []) ("f 1/2/3 4/5/6 7/8/9") = Except.ok ([], [6, 3, 0]) ∧
      ([6, 3, 0] : List ℕ) ≠ [6, 4, 1] :=
  ⟨rfl, by decide⟩

/-- C2 (amended): parsing the single face line `f 1/2/3 4/5/6 7/8/9` appends
exactly the index triple (6, 3, 0), in that order, to the index sequence
(each reference truncated at its first slash, parsed 1-based, the triple
reversed, then converted to 0-based). -/
theorem claim2_theorem (normN : Vec3 → Vec3) (st : ParseState) :
    processLine normN st ("f 1/2/3 4/5/6 7/8/9") =
      Except.ok (st.1, st.2 ++ [6, 3, 0]) :=
  rfl

/-! ## Claim C8 -/

/-- C8: for an input stream that cannot be opened (modelled by `none`),
`parseOBJ` returns immediately with empty vertex and index containers and
raises no error. -/
theorem claim8_theorem (normN : Vec3 → Vec3) :
    parseOBJ normN none = Except.ok ([], []) :=
  rfl

/-! ## Claim C10 -/

/-- C10: a face reference whose parsed 1-based value is 0 (line `f 0 2 3`)
stores the index 4294967295: the 0-based conversion is 32-bit unsigned
subtraction, `(w - 1) mod 2^32`, and wraps instead of failing. -/
theorem claim10_theorem :
    (∀ (normN : Vec3 → Vec3) (st : ParseState),
        processLine normN st ("f 0 2 3") =
          Except.ok (st.1, st.2 ++ [2, 1, 4294967295])) ∧
      ∀ z : ℤ, faceIndex z = ((z - 1) % 2 ^ 32).toNat := by
  refine ⟨fun normN st => rfl, fun z => ?_⟩
  unfold faceIndex uint32Sub1 toUint32
  omega

/-! ## Claim C3 -/

theorem stoiInt_le_intMax {s : String} {a : ℤ} (h : stoiInt s = some a) : a ≤ intMax := by
  simp only [stoiInt] at h
  split at h
  · exact absurd h (by simp)
  · split at h
    · exact absurd h (by simp)
    · rename_i hrange
      rw [Option.some_inj] at h
      subst h
      push_neg at hrange
      exact hrange.2

theorem faceIndex_of_bounds (a : ℤ) (h1 : 1 ≤ a) (h2 : a ≤ intMax) :
    faceIndex a = (a - 1).toNat := by
  unfold faceIndex uint32Sub1 toUint32
  unfold intMax at h2
  omega

/-- C3: for every well-formed face record with file-order references
(a, b, c) — positive and within `int` range, as `std::stoi` requires —
`parseOBJ` appends exactly the triple (c-1, b-1, a-1), in that order, to the
index sequence: the winding is reversed from file order. -/
theorem claim3_theorem (normN : Vec3 → Vec3) (st : ParseState) (l t1 t2 t3 : String)
    (a b c : ℤ)
    (hskip : skipLine l = false)
    (htok : tokenize l = ["f", t1, t2, t3])
    (h1 : stoiInt (truncSlash t1) = some a)
    (h2 : stoiInt (truncSlash t2) = some b)
    (h3 : stoiInt (truncSlash t3) = some c)
    (ha : 1 ≤ a) (hb : 1 ≤ b) (hc : 1 ≤ c) :
    processLine normN st l =
      Except.ok (st.1, st.2 ++ [(c - 1).toNat, (b - 1).toNat, (a - 1).toNat]) := by
  simp only [processLine, hskip, Bool.false_eq_true, if_false, htok, dispatch]
  rw [if_neg (by decide), if_neg (by decide), if_pos (by decide)]
  simp only [handleF, h1, h2, h3]
  rw [faceIndex_of_bounds a ha (stoiInt_le_intMax h1),
    faceIndex_of_bounds b hb (stoiInt_le_intMax h2),
    faceIndex_of_bounds c hc (stoiInt_le_intMax h3)]

/-- C3 witness: the face record `f 2 3 4` appends (3, 2, 1). -/
theorem claim3_witness :
    processLine (fun n => n) ([], []) ("f 2 3 4") = Except.ok ([], [3, 2, 1]) :=
  claim3_theorem (fun n => n) ([], []) ("f 2 3 4") "2" "3" "4" 2 3 4
    rfl rfl rfl rfl rfl (by decide) (by decide) (by decide)

/-! ## Claim C9 -/

/-- C9: a non-comment line whose tag has the wrong token count — a `vn`
record without exactly 4 tokens, a `v` record without exactly 4 or 7 tokens,
an `f` record without exactly 4 tokens — is skipped with no signal, leaving
both the vertex and the index sequence unchanged. -/
theorem claim9_theorem (normN : Vec3 → Vec3) (st : ParseState) (l t : String)
    (rest : List String)
    (hskip : skipLine l = false)
    (htok : tokenize l = t :: rest)
    (hbad : (t = "vn" ∧ rest.length ≠ 3) ∨
      (t = "v" ∧ rest.length ≠ 3 ∧ rest.length ≠ 6) ∨
      (t = "f" ∧ rest.length ≠ 3)) :
    processLine normN st l = Except.ok st := by
  simp only [processLine, hskip, Bool.false_eq_true, if_false, htok, dispatch]
  rcases hbad with ⟨ht, hlen⟩ | ⟨ht, hlen3, hlen6⟩ | ⟨ht, hlen⟩
  · subst ht
    rw [if_pos rfl]
    rcases rest with _ | ⟨r1, _ | ⟨r2, _ | ⟨r3, _ | ⟨r4, rs⟩⟩⟩⟩
    · rfl
    · rfl
    · rfl
    · simp at hlen
    · rfl
  · subst ht
    rw [if_neg (by decide), if_pos rfl]
    rcases rest with
      _ | ⟨r1, _ | ⟨r2, _ | ⟨r3, _ | ⟨r4, _ | ⟨r5, _ | ⟨r6, _ | ⟨r7, rs⟩⟩⟩⟩⟩⟩⟩
    · rfl
    · rfl
    · rfl
    · simp at hlen3
    · rfl
    · rfl
    · simp at hlen6
    · rfl
  · subst ht
    rw [if_neg (by decide), if_neg (by decide), if_pos rfl]
    rcases rest with _ | ⟨r1, _ | ⟨r2, _ | ⟨r3, _ | ⟨r4, rs⟩⟩⟩⟩
    · rfl
    · rfl
    · rfl
    · simp at hlen
    · rfl

/-- C9 witness: the malformed 3-token line `vn 1.0 2.0` leaves the state
unchanged. -/
theorem claim9_witness :
    processLine (fun n => n) ([], []) ("vn 1.0 2.0") = Except.ok ([], []) :=
  claim9_theorem (fun n => n) ([], []) ("vn 1.0 2.0") "vn" ["1.0", "2.0"]
    rfl rfl (Or.inl ⟨rfl, by decide⟩)

/-! ## Claim C7 -/

/-- C7: `Render` is a no-op when the ready flag is false; when it is true it
binds the vertex and index buffers, the input layout, the vertex and pixel
shaders, binds the geometry shader exactly when the capability flag is
false, and submits one indexed draw whose instance count is exactly 2. -/
theorem claim7_theorem (usingVprt : Bool) (indexCount : ℕ) :
    render false usingVprt indexCount = [] ∧
      GpuCmd.setVertexBuffers ∈ render true usingVprt indexCount ∧
      GpuCmd.setIndexBuffer ∈ render true usingVprt indexCount ∧
      GpuCmd.setInputLayout ∈ render true usingVprt indexCount ∧
      GpuCmd.setVertexShader ∈ render true usingVprt indexCount ∧
      GpuCmd.setPixelShader ∈ render true usingVprt indexCount ∧
      (GpuCmd.setGeometryShader ∈ render true usingVprt indexCount ↔ usingVprt = false) ∧
      (render true usingVprt indexCount).filter isDraw =
        [GpuCmd.drawIndexedInstanced indexCount 2] := by
  cases usingVprt <;> simp [render, isDraw]

/-! ## Claim C6 -/

theorem loadReaches_invariant (vprt : Bool) (s : LoadStatus)
    (h : LoadReaches (beginLoad vprt) s) :
    (s.buffersDone = true →
      s.vsDone = true ∧ s.psDone = true ∧ (s.usingVprt = false → s.gsDone = true)) ∧
      (s.loadingComplete = true → s.buffersDone = true) := by
  induction h with
  | refl => simp [beginLoad]
  | tail hr hstep ih =>
    cases hstep with
    | vsReady => simp_all
    | psReady => simp_all
    | gsReady hg => simp_all
    | buffersBuilt hv hp hg => simp_all
    | complete hb => simp_all

/-- C6: in the resource-creation lifecycle, the ready flag is false
immediately after `beginLoad`, and every state reachable through the step
relation has the ready flag true only when the vertex-shader, pixel-shader,
geometry-shader-when-required, and buffer-build steps have all completed. -/
theorem claim6_theorem (vprt : Bool) (s : LoadStatus)
    (h : LoadReaches (beginLoad vprt) s) :
    (beginLoad vprt).loadingComplete = false ∧
      (s.loadingComplete = true →
        s.vsDone = true ∧ s.psDone = true ∧
          (s.usingVprt = false → s.gsDone = true) ∧ s.buffersDone = true) := by
  obtain ⟨h1, h2⟩ := loadReaches_invariant vprt s h
  refine ⟨rfl, fun hc => ?_⟩
  have hb := h2 hc
  obtain ⟨hv, hp, hg⟩ := h1 hb
  exact ⟨hv, hp, hg, hb⟩

/-- C6 witness: a complete run of the lifecycle on a device without VPRT
support, reaching the fully loaded state. -/
theorem claim6_witness :
    (beginLoad false).loadingComplete = false ∧
      (loadedState.loadingComplete = true →
        loadedState.vsDone = true ∧ loadedState.psDone = true ∧
          (loadedState.usingVprt = false → loadedState.gsDone = true) ∧
          loadedState.buffersDone = true) := by
  have hreach : LoadReaches (beginLoad false) loadedState :=
    Relation.ReflTransGen.tail
      (Relation.ReflTransGen.tail
        (Relation.ReflTransGen.tail
          (Relation.ReflTransGen.tail
            (Relation.ReflTransGen.single (LoadStep.vsReady (beginLoad false)))
            (LoadStep.psReady _))
          (LoadStep.gsReady _ rfl))
        (LoadStep.buffersBuilt _ rfl rfl (fun _ => rfl)))
      (LoadStep.complete _ rfl)
  exact claim6_theorem false loadedState hreach

/-! ## Claim C5: supporting lemmas -/

theorem setBackPos_eq_none {vs : List VertexPositionColor} {p : Vec3}
    (h : setBackPos vs p = none) : vs = [] := by
  cases vs with
  | nil => rfl
  | cons v l => simp [setBackPos] at h

theorem setBackPos_ne_nil {vs vs2 : List VertexPositionColor} {p : Vec3}
    (h : setBackPos vs p = some vs2) : vs2 ≠ [] := by
  cases vs with
  | nil => simp [setBackPos] at h
  | cons v l =>
    simp only [setBackPos, Option.some_inj] at h
    subst h
    simp

theorem dispatch_error_cases {normN : Vec3 → Vec3} {st : ParseState} {rec : List String}
    {e : ParseErr} (h : dispatch normN st rec = Except.error e) :
    e = ParseErr.badNumber ∨ (e = ParseErr.backEmpty ∧ isVTok rec = true ∧ st.1 = []) := by
  cases rec with
  | nil => simp [dispatch] at h
  | cons t rest =>
    simp only [dispatch] at h
    by_cases h1 : t = "vn"
    · rw [if_pos h1] at h
      split at h
      · unfold handleVn at h
        split at h
        · simp at h
        · exact Or.inl (by injection h with he; exact he.symm)
      · simp at h
    · rw [if_neg h1] at h
      by_cases h2 : t = "v"
      · rw [if_pos h2] at h
        subst h2
        split at h
        · rename_i r1 r2 r3
          unfold handleV at h
          split at h
          · rename_i hx hy hz
            split at h
            · simp at h
            · rename_i hback
              refine Or.inr ⟨by injection h with he; exact he.symm, ?_, setBackPos_eq_none hback⟩
              simp [isVTok]
          · exact Or.inl (by injection h with he; exact he.symm)
        · rename_i r1 r2 r3 r4 r5 r6
          unfold handleV7 at h
          split at h
          · rename_i hx hy hz hr hg hb
            split at h
            · simp at h
            · rename_i hback
              refine Or.inr ⟨by injection h with he; exact he.symm, ?_, setBackPos_eq_none hback⟩
              simp [isVTok]
          · exact Or.inl (by injection h with he; exact he.symm)
        · simp at h
      · rw [if_neg h2] at h
        by_cases h3 : t = "f"
        · rw [if_pos h3] at h
          split at h
          · unfold handleF at h
            split at h
            · simp at h
            · exact Or.inl (by injection h with he; exact he.symm)
          · simp at h
        · rw [if_neg h3] at h
          simp at h

theorem processLine_error_cases {normN : Vec3 → Vec3} {st : ParseState} {l : String}
    {e : ParseErr} (h : processLine normN st l = Except.error e) :
    e = ParseErr.badNumber ∨ (e = ParseErr.backEmpty ∧ isVTouch l = true ∧ st.1 = []) := by
  unfold processLine at h
  cases hs : skipLine l with
  | true => rw [hs] at h; simp at h
  | false =>
    rw [hs] at h
    simp only [Bool.false_eq_true, if_false] at h
    rcases dispatch_error_cases h with hb | ⟨he, hv, hst⟩
    · exact Or.inl hb
    · exact Or.inr ⟨he, by simp [isVTouch, hs, hv], hst⟩

theorem dispatch_ok_nonempty {normN : Vec3 → Vec3} {st st2 : ParseState} {rec : List String}
    (h : dispatch normN st rec = Except.ok st2) (hne : st.1 ≠ []) : st2.1 ≠ [] := by
  cases rec with
  | nil => simp only [dispatch, Except.ok.injEq] at h; exact h ▸ hne
  | cons t rest =>
    simp only [dispatch] at h
    split at h
    · split at h
      · unfold handleVn at h
        split at h
        · rw [Except.ok.injEq] at h
          subst h
          simp
        · simp at h
      · rw [Except.ok.injEq] at h; exact h ▸ hne
    · split at h
      · split at h
        · unfold handleV at h
          split at h
          · split at h
            · rename_i hback
              rw [Except.ok.injEq] at h
              subst h
              exact setBackPos_ne_nil hback
            · simp at h
          · simp at h
        · unfold handleV7 at h
          split at h
          · split at h
            · rename_i hback
              rw [Except.ok.injEq] at h
              subst h
              exact setBackPos_ne_nil hback
            · simp at h
          · simp at h
        · rw [Except.ok.injEq] at h; exact h ▸ hne
      · split at h
        · split at h
          · unfold handleF at h
            split at h
            · rw [Except.ok.injEq] at h
              subst h
              exact hne
            · simp at h
          · rw [Except.ok.injEq] at h; exact h ▸ hne
        · rw [Except.ok.injEq] at h; exact h ▸ hne

theorem dispatch_vn_nonempty {normN : Vec3 → Vec3} {st st2 : ParseState} {rec : List String}
    (hvn : isVnTok rec = true) (h : dispatch normN st rec = Except.ok st2) : st2.1 ≠ [] := by
  cases rec with
  | nil => simp [isVnTok] at hvn
  | cons t rest =>
    simp only [isVnTok, Bool.and_eq_true, beq_iff_eq] at hvn
    obtain ⟨ht, hlen⟩ := hvn
    subst ht
    rcases rest with _ | ⟨r1, _ | ⟨r2, _ | ⟨r3, _ | ⟨r4, rs⟩⟩⟩⟩
    · simp at hlen
    · simp at hlen
    · simp at hlen
    · simp only [dispatch, reduceIte] at h
      unfold handleVn at h
      split at h
      · rw [Except.ok.injEq] at h
        subst h
        simp
      · simp at h
    · simp at hlen

theorem processLine_ok_nonempty {normN : Vec3 → Vec3} {st st2 : ParseState} {l : String}
    (h : processLine normN st l = Except.ok st2) (hne : st.1 ≠ []) : st2.1 ≠ [] := by
  unfold processLine at h
  cases hs : skipLine l with
  | true =>
    rw [hs] at h
    simp only [if_true, Except.ok.injEq] at h
    exact h ▸ hne
  | false =>
    rw [hs] at h
    simp only [Bool.false_eq_true, if_false] at h
    exact dispatch_ok_nonempty h hne

theorem processLine_vn_nonempty {normN : Vec3 → Vec3} {st st2 : ParseState} {l : String}
    (hvn : isVnRec l = true) (h : processLine normN st l = Except.ok st2) : st2.1 ≠ [] := by
  simp only [isVnRec, Bool.and_eq_true, Bool.not_eq_true'] at hvn
  obtain ⟨hs, htok⟩ := hvn
  unfold processLine at h
  rw [hs] at h
  simp only [Bool.false_eq_true, if_false] at h
  exact dispatch_vn_nonempty htok h

theorem runLinesFrom_no_backEmpty (normN : Vec3 → Vec3) (ls : List String) :
    ∀ (seen : Bool) (st : ParseState),
      vnBeforeV seen ls = true → (seen = true → st.1 ≠ []) →
      runLinesFrom normN st ls ≠ Except.error ParseErr.backEmpty := by
  induction ls with
  | nil =>
    intro seen st _ _ hcontra
    simp [runLinesFrom] at hcontra
  | cons l ls ih =>
    intro seen st hpre hinv
    unfold vnBeforeV at hpre
    by_cases hveto : isVTouch l && !seen
    · rw [if_pos hveto] at hpre
      exact absurd hpre (by simp)
    · rw [if_neg hveto] at hpre
      unfold runLinesFrom
      cases hpl : processLine normN st l with
      | ok st2 =>
        apply ih (seen || isVnRec l) st2 hpre
        intro hseen
        have hseen2 : seen = true ∨ isVnRec l = true := by simpa using hseen
        rcases hseen2 with hs | hv
        · exact processLine_ok_nonempty hpl (hinv hs)
        · exact processLine_vn_nonempty hv hpl
      | error e =>
        intro hcontra
        rw [Except.error.injEq] at hcontra
        subst hcontra
        rcases processLine_error_cases hpl with hbn | ⟨_, hvt, hempty⟩
        · exact absurd hbn (by simp)
        · have hseen : seen = true := by
            cases seen
            · exact absurd (by simp [hvt]) hveto
            · rfl
          exact hinv hseen hempty

theorem runLinesFrom_no_emptyScan (normN : Vec3 → Vec3) (ls : List String) :
    ∀ (st : ParseState),
      runLinesFrom normN st ls ≠ Except.error ParseErr.emptyScan := by
  induction ls with
  | nil =>
    intro st hcontra
    simp [runLinesFrom] at hcontra
  | cons l ls ih =>
    intro st hcontra
    unfold runLinesFrom at hcontra
    cases hpl : processLine normN st l with
    | ok st2 =>
      rw [hpl] at hcontra
      exact ih st2 hcontra
    | error e =>
      rw [hpl] at hcontra
      rw [Except.error.injEq] at hcontra
      subst hcontra
      rcases processLine_error_cases hpl with hbn | ⟨hbe, _, _⟩
      · exact absurd hbn (by simp)
      · exact absurd hbe (by simp)

theorem dispatch_vtok_error {normN : Vec3 → Vec3} {st : ParseState} {rec : List String}
    (hv : isVTok rec = true) (hempty : st.1 = []) :
    ∃ e, dispatch normN st rec = Except.error e ∧
      (e = ParseErr.backEmpty ∨ e = ParseErr.badNumber) := by
  cases rec with
  | nil => simp [isVTok] at hv
  | cons t rest =>
    simp only [isVTok, Bool.and_eq_true, Bool.or_eq_true, beq_iff_eq] at hv
    obtain ⟨ht, hlen⟩ := hv
    subst ht
    rcases rest with
      _ | ⟨r1, _ | ⟨r2, _ | ⟨r3, _ | ⟨r4, _ | ⟨r5, _ | ⟨r6, _ | ⟨r7, rs⟩⟩⟩⟩⟩⟩⟩
    · simp at hlen
    · simp at hlen
    · simp at hlen
    · simp only [dispatch, reduceIte]
      rcases hq1 : stofQ r1 with _ | q1
      · exact ⟨.badNumber, by simp [handleV, hq1], Or.inr rfl⟩
      · rcases hq2 : stofQ r2 with _ | q2
        · exact ⟨.badNumber, by simp [handleV, hq1, hq2], Or.inr rfl⟩
        · rcases hq3 : stofQ r3 with _ | q3
          · exact ⟨.badNumber, by simp [handleV, hq1, hq2, hq3], Or.inr rfl⟩
          · exact ⟨.backEmpty, by simp [handleV, hq1, hq2, hq3, hempty, setBackPos],
              Or.inl rfl⟩
    · simp at hlen
    · simp at hlen
    · simp only [dispatch, reduceIte]
      rcases hq1 : stofQ r1 with _ | q1
      · exact ⟨.badNumber, by simp [handleV7, hq1], Or.inr rfl⟩
      · rcases hq2 : stofQ r2 with _ | q2
        · exact ⟨.badNumber, by simp [handleV7, hq1, hq2], Or.inr rfl⟩
        · rcases hq3 : stofQ r3 with _ | q3
          · exact ⟨.badNumber, by simp [handleV7, hq1, hq2, hq3], Or.inr rfl⟩
          · rcases hq4 : stofQ r4 with _ | q4
            · exact ⟨.badNumber, by simp [handleV7, hq1, hq2, hq3, hq4], Or.inr rfl⟩
            · rcases hq5 : stofQ r5 with _ | q5
              · exact ⟨.badNumber, by simp [handleV7, hq1, hq2, hq3, hq4, hq5], Or.inr rfl⟩
              · rcases hq6 : stofQ r6 with _ | q6
                · exact ⟨.badNumber,
                    by simp [handleV7, hq1, hq2, hq3, hq4, hq5, hq6], Or.inr rfl⟩
                · exact ⟨.backEmpty,
                    by simp [handleV7, hq1, hq2, hq3, hq4, hq5, hq6, hempty, setBackPos],
                    Or.inl rfl⟩
    · simp at hlen

/-! ## Claim C5 -/

/-- C5: under the precondition that every `v` record is preceded by a `vn`
record (`vnBeforeV`) and that the final vertex sequence is non-empty, no
out-of-bounds access of `parseOBJ` is reachable: the result is never the
`backEmpty` undefined behaviour (empty-vector `back()`) nor the `emptyScan`
undefined behaviour (extremum scan of an empty vector).  Without the
precondition the parse fails fast: a `v` record processed with no preceding
vertex yields an error (the `backEmpty` precondition violation, or the
numeric exception when a coordinate fails to parse first), and a run ending
with an empty vertex vector makes `parseOBJ` fail with `emptyScan`. -/
theorem claim5_theorem (normN : Vec3 → Vec3) :
    (∀ lines : List String,
        vnBeforeV false lines = true →
        (∀ vs is, runLines normN lines = Except.ok (vs, is) → vs ≠ []) →
        parseOBJ normN (some lines) ≠ Except.error ParseErr.backEmpty ∧
          parseOBJ normN (some lines) ≠ Except.error ParseErr.emptyScan) ∧
      (∀ (st : ParseState) (l : String), isVTouch l = true → st.1 = [] →
        ∃ e, processLine normN st l = Except.error e ∧
          (e = ParseErr.backEmpty ∨ e = ParseErr.badNumber)) ∧
      (∀ (lines : List String) (is : List ℕ),
        runLines normN lines = Except.ok ([], is) →
        parseOBJ normN (some lines) = Except.error ParseErr.emptyScan) := by
  refine ⟨?_, ?_, ?_⟩
  · intro lines hpre hfin
    cases hrun : runLines normN lines with
    | ok p =>
      obtain ⟨vs, is⟩ := p
      have hne := hfin vs is hrun
      cases vs with
      | nil => exact absurd rfl hne
      | cons v0 rest =>
        constructor
        · simp [parseOBJ, hrun]
        · simp [parseOBJ, hrun]
    | error e =>
      constructor
      · intro hcontra
        simp only [parseOBJ, hrun] at hcontra
        rw [Except.error.injEq] at hcontra
        subst hcontra
        exact runLinesFrom_no_backEmpty normN lines false ([], []) hpre
          (by intro h; exact absurd h (by simp)) hrun
      · intro hcontra
        simp only [parseOBJ, hrun] at hcontra
        rw [Except.error.injEq] at hcontra
        subst hcontra
        exact runLinesFrom_no_emptyScan normN lines ([], []) hrun
  · intro st l hv hempty
    have hs : skipLine l = false := by
      have := hv
      simp only [isVTouch, Bool.and_eq_true, Bool.not_eq_true'] at this
      exact this.1
    have htok : isVTok (tokenize l) = true := by
      simp only [isVTouch, Bool.and_eq_true, Bool.not_eq_true'] at hv
      exact hv.2
    unfold processLine
    rw [hs]
    simp only [Bool.false_eq_true, if_false]
    exact dispatch_vtok_error htok hempty
  · intro lines is hrun
    simp [parseOBJ, hrun]

/-- C5 witness: the precondition part on a well-formed two-line input, the
fail-fast part on a leading `v` record, and the empty-scan part on an input
with no vertex records. -/
theorem claim5_witness :
    (parseOBJ (fun n => n) (some demoLines) ≠ Except.error ParseErr.backEmpty ∧
        parseOBJ (fun n => n) (some demoLines) ≠ Except.error ParseErr.emptyScan) ∧
      (∃ e, processLine (fun n => n) ([], []) ("v 1 2 3") = Except.error e ∧
        (e = ParseErr.backEmpty ∨ e = ParseErr.badNumber)) ∧
      parseOBJ (fun n => n) (some ["f 1 2 3"]) = Except.error ParseErr.emptyScan := by
  obtain ⟨p1, p2, p3⟩ := claim5_theorem (fun n => n)
  refine ⟨p1 demoLines rfl ?_, p2 ([], []) ("v 1 2 3") rfl rfl,
    p3 ["f 1 2 3"] [2, 1, 0] (by with_unfolding_all rfl)⟩
  intro vs is h
  have hd : runLines (fun n => n) demoLines = Except.ok (demoVerts, []) := by
    with_unfolding_all rfl
  rw [hd] at h
  rw [Except.ok.injEq] at h
  rw [Prod.mk.injEq] at h
  rw [← h.1]
  simp [demoVerts]

end OBJR
